import Mathlib

/-!
Verification development for the ai_rpg streaming chat-turn pipeline.

The definitions below are a shallow embedding of the Python sources:
`models.py`, `services/db_service.py`, `routers/ai.py`,
`routers/conversations.py` and `main.py`.  Database rows become list
elements, sessions become explicit state passing, SQL UPDATE statements
become maps over the row lists, and each commit is one state transition.
Timestamps and freshly assigned primary keys are supplied as parameters.

Note on the data model: `models.py` declares `ChatMessage` without an
`is_active` column, while `routers/conversations.py` reads and writes such
a column (soft delete of messages).  The embedding includes the column so
that both code paths are expressible; the queries of `routers/ai.py` and
`main.py` never consult it, exactly as in the source.
-/

namespace AiRpg

/-- MessageRole enum of models.py: the only permitted roles. -/
inductive MessageRole
  | user
  | assistant
deriving DecidableEq, Repr

/-- User row of models.py (table user): identity anchor with an integer
credit balance.  The table carries `CheckConstraint "credits >= 0"`. -/
structure User where
  id : Nat
  propelauth_user_id : String
  email : String
  credits : Int
deriving DecidableEq, Repr

/-- Conversation row of models.py. -/
structure Conversation where
  id : Nat
  user_id : Nat
  title : String
  created_at : Nat
  updated_at : Nat
  is_active : Bool
deriving DecidableEq, Repr

/-- ChatMessage row: fields of models.py plus the `is_active` column that
routers/conversations.py manipulates (see the file note above). -/
structure ChatMessage where
  id : Nat
  user_id : Option Nat
  conversation_id : Nat
  role : MessageRole
  content : String
  timestamp : Nat
  is_active : Bool
deriving DecidableEq, Repr

/-- The durable store: the three tables. -/
structure Store where
  users : List User
  conversations : List Conversation
  messages : List ChatMessage
deriving DecidableEq, Repr

/-- Primary-key lookup `session.get(User, user_id)`. -/
def findUserById (st : Store) (uid : Nat) : Option User :=
  st.users.find? fun u => decide (u.id = uid)

/-- Lookup `select(User).where(User.propelauth_user_id == pid)).first()`. -/
def findUserByPropelId (st : Store) (pid : String) : Option User :=
  st.users.find? fun u => decide (u.propelauth_user_id = pid)

/-- check_credit_status of services/db_service.py: advisory pre-check,
true iff the stored balance is positive. -/
def check_credit_status (u : User) : Bool × String :=
  if u.credits ≤ 0 then (false, "Insufficient credits.")
  else (true, "Credit available.")

/-- UPDATE user SET credits = f(credits) WHERE id = uid. -/
def updateUserCredits (us : List User) (uid : Nat) (f : Int → Int) : List User :=
  us.map fun u => if u.id = uid then { u with credits := f u.credits } else u

/-- UPDATE conversation SET updated_at = ts WHERE id = cid. -/
def bumpConversation (cs : List Conversation) (cid ts : Nat) : List Conversation :=
  cs.map fun c => if c.id = cid then { c with updated_at := ts } else c

/-- START_MESSAGE constant of services/db_service.py. -/
def START_MESSAGE : String :=
  "Ready to forge your next legend? ... (rest of message)"

/-- _create_playground_conversation_internal of services/db_service.py:
for a fresh user it commits a conversation titled New Adventure and then
commits one ASSISTANT welcome message into it. -/
def create_playground_conversation (st : Store) (uid pgCid pgMid pgTs : Nat) : Store :=
  let conv : Conversation :=
    { id := pgCid, user_id := uid, title := "New Adventure",
      created_at := pgTs, updated_at := pgTs, is_active := true }
  let welcome : ChatMessage :=
    { id := pgMid, user_id := none, conversation_id := pgCid,
      role := .assistant, content := START_MESSAGE, timestamp := pgTs,
      is_active := true }
  { st with conversations := st.conversations ++ [conv],
            messages := st.messages ++ [welcome] }

/-- get_or_create_db_user of services/db_service.py: find the user by the
external identity; otherwise create it with 0 credits and create the
playground conversation with its welcome message. -/
def get_or_create_db_user (st : Store) (pid email : String)
    (newUid pgCid pgMid pgTs : Nat) : Store × User :=
  match findUserByPropelId st pid with
  | some u => (st, u)
  | none =>
    let u : User := { id := newUid, propelauth_user_id := pid,
                      email := email, credits := 0 }
    (create_playground_conversation
       { st with users := st.users ++ [u] } newUid pgCid pgMid pgTs, u)

/-- Python string slicing s[:n]: the first n code points.  `String.data`
is the code-point sequence of a Lean string. -/
def pyTake (s : String) (n : Nat) : String := ⟨s.data.take n⟩

/-- Python len(s): the number of code points. -/
def pyLen (s : String) : Nat := s.data.length

/-- Error classification of stream_and_save (routers/ai.py line 113):
the Python test chunk.startswith("Error:") on the code-point sequence of
the fragment.  `String.data` is that code-point sequence. -/
def startsWithError (c : String) : Bool :=
  "Error:".data.isPrefixOf c.data

/-- Chunk loop of stream_and_save (routers/ai.py lines 112-122): a chunk
that starts with the literal "Error:" sets ai_had_error and replaces the
accumulator with the error text; every other chunk is appended. -/
def processChunks : List String → Bool → String → Bool × String
  | [], err, acc => (err, acc)
  | c :: cs, err, acc =>
    if startsWithError c then processChunks cs true c
    else processChunks cs err (acc ++ c)

/-- Outcome of one turn of the orchestrator. -/
inductive TurnOutcome
  | finalized
  | discarded
deriving DecidableEq, Repr

/-- stream_and_save of routers/ai.py (lines 105-173), sequential view: run
the chunk loop; on an error chunk or empty accumulated text, write
nothing; otherwise re-fetch the user in a fresh session, abort if the
balance is exhausted, else commit in one unit of work the assistant
message, the credit decrement and the conversation timestamp bump. -/
def stream_and_save (chunks : List String) (st : Store)
    (uid cid amid aiTs : Nat) : TurnOutcome × Store :=
  let p := processChunks chunks false ""
  if p.1 = true ∨ p.2 = "" then (.discarded, st)
  else
    match findUserById st uid with
    | none => (.discarded, st)
    | some u =>
      if u.credits ≤ 0 then (.discarded, st)
      else
        let aiMsg : ChatMessage :=
          { id := amid, user_id := none, conversation_id := cid,
            role := .assistant, content := p.2, timestamp := aiTs,
            is_active := true }
        (.finalized,
          { st with
            messages := st.messages ++ [aiMsg],
            users := updateUserCredits st.users uid (fun c => c - 1),
            conversations := bumpConversation st.conversations cid aiTs })

/-- Step 4 of chat_message_stream (routers/ai.py lines 78-89): commit the
user message and the conversation timestamp bump before any streaming. -/
def save_user_message (st : Store) (uid cid umid umTs saveTs : Nat)
    (prompt : String) : Store :=
  let userMsg : ChatMessage :=
    { id := umid, user_id := some uid, conversation_id := cid,
      role := .user, content := prompt, timestamp := umTs, is_active := true }
  { st with messages := st.messages ++ [userMsg],
            conversations := bumpConversation st.conversations cid saveTs }

/-- Steps 4-7 of chat_message_stream (routers/ai.py): the user message is
committed first, then the stream runs and stream_and_save may append the
assistant message. -/
def chat_turn (st : Store) (uid cid umid umTs saveTs amid aiTs : Nat)
    (prompt : String) (chunks : List String) : TurnOutcome × Store :=
  stream_and_save chunks (save_user_message st uid cid umid umTs saveTs prompt)
    uid cid amid aiTs

/-- Ascending timestamp order used by ORDER BY timestamp ASC. -/
def histLE (a b : ChatMessage) : Prop := a.timestamp ≤ b.timestamp

instance : DecidableRel histLE := fun a b => Nat.decLe a.timestamp b.timestamp

instance : IsTotal ChatMessage histLE :=
  ⟨fun a b => Nat.le_total a.timestamp b.timestamp⟩

instance : IsTrans ChatMessage histLE :=
  ⟨fun _ _ _ h h2 => Nat.le_trans h h2⟩

/-- History query of chat_message_stream (routers/ai.py lines 94-97):
all messages of the conversation, ascending by timestamp, LIMIT 20.  The
query has no condition on any per-message active flag. -/
def historyForAI (st : Store) (cid : Nat) : List ChatMessage :=
  (List.insertionSort histLE
    (st.messages.filter fun m => decide (m.conversation_id = cid))).take 20

/-- Conversation fetch used by delete_conversation and by the explicit-id
branch of the chat endpoints: id, ownership and active flag. -/
def findOwnedActiveConversation (st : Store) (uid cid : Nat) :
    Option Conversation :=
  st.conversations.find? fun c =>
    decide (c.id = cid) && decide (c.user_id = uid) && c.is_active

/-- delete_conversation of routers/conversations.py lines 112-139 and
main.py lines 474-515: soft delete, setting only is_active and updated_at
of the conversation row; messages and users are not touched. -/
def delete_conversation (st : Store) (uid cid now : Nat) : Option Store :=
  match findOwnedActiveConversation st uid cid with
  | none => none
  | some _ =>
    some { st with
           conversations := st.conversations.map fun c =>
             if c.id = cid then { c with is_active := false, updated_at := now }
             else c }

/-- Descending updated_at order used by ORDER BY updated_at DESC. -/
def convDesc (a b : Conversation) : Prop := b.updated_at ≤ a.updated_at

instance : DecidableRel convDesc := fun a b => Nat.decLe b.updated_at a.updated_at

instance : IsTotal Conversation convDesc :=
  ⟨fun a b => (Nat.le_total b.updated_at a.updated_at).imp id id⟩

instance : IsTrans Conversation convDesc :=
  ⟨fun _ _ _ h h2 => Nat.le_trans h2 h⟩

/-- Most-recent-active-conversation lookup of chat_message_stream
(routers/conversations.py lines 172-180): active conversations of the
user, ORDER BY updated_at DESC, first row. -/
def mostRecentActiveConversation (st : Store) (uid : Nat) : Option Conversation :=
  (List.insertionSort convDesc
    (st.conversations.filter fun c => decide (c.user_id = uid) && c.is_active)).head?

/-- Error responses of the chat endpoints. -/
inductive ChatError
  | err402
  | err404
  | err400
deriving DecidableEq, Repr

/-- Conversation resolution of chat_message_stream
(routers/conversations.py lines 164-186): an absent id means the most
recently updated active conversation, rejected with 400 if none exists;
an explicit id is fetched with ownership and active checks, 404 if
missing. -/
def resolve_conversation (st : Store) (uid : Nat) (cidForm : Option Nat) :
    Except ChatError Conversation :=
  match cidForm with
  | none =>
    match mostRecentActiveConversation st uid with
    | none => .error .err400
    | some c => .ok c
  | some cid =>
    match findOwnedActiveConversation st uid cid with
    | none => .error .err404
    | some c => .ok c

/-- Result of the ai.py chat endpoint: an HTTP error response or a
completed stream with its turn outcome. -/
inductive ChatResult
  | errResp (e : ChatError)
  | streamed (o : TurnOutcome)
deriving DecidableEq, Repr

/-- Fresh primary keys and timestamps consumed by one request. -/
structure FreshIds where
  newUid : Nat
  pgCid : Nat
  pgMid : Nat
  newConvId : Nat
  umid : Nat
  amid : Nat
  pgTs : Nat
  convTs : Nat
  umTs : Nat
  saveTs : Nat
  aiTs : Nat
deriving DecidableEq, Repr

/-- chat_message_stream of routers/ai.py (lines 18-196): resolve or
create the user, reject with 402 on the advisory credit check, resolve
the conversation by explicit id (404 when absent) or create a fresh one
titled from the prompt when the form field is missing, commit the user
message, then run the stream and stream_and_save. -/
def chat_message_stream_ai (st : Store) (pid email prompt : String)
    (cidForm : Option Nat) (f : FreshIds) (chunks : List String) :
    ChatResult × Store :=
  let r0 := get_or_create_db_user st pid email f.newUid f.pgCid f.pgMid f.pgTs
  let st0 := r0.1
  let dbUser := r0.2
  let uid := dbUser.id
  if (check_credit_status dbUser).1 = false then (.errResp .err402, st0)
  else
    match cidForm with
    | some cid =>
      match findOwnedActiveConversation st0 uid cid with
      | none => (.errResp .err404, st0)
      | some _ =>
        let st1 := save_user_message st0 uid cid f.umid f.umTs f.saveTs prompt
        let r := stream_and_save chunks st1 uid cid f.amid f.aiTs
        (.streamed r.1, r.2)
    | none =>
      let title :=
        pyTake prompt 50 ++ (if 50 < pyLen prompt then "..." else "")
      let conv : Conversation :=
        { id := f.newConvId, user_id := uid, title := title,
          created_at := f.convTs, updated_at := f.convTs, is_active := true }
      let st1 := { st0 with conversations := st0.conversations ++ [conv] }
      let st2 :=
        save_user_message st1 uid f.newConvId f.umid f.umTs f.saveTs prompt
      let r := stream_and_save chunks st2 uid f.newConvId f.amid f.aiTs
      (.streamed r.1, r.2)

end AiRpg

namespace AiRpg.Ledger

/-!
Interleaving model of the finalize step, for the concurrency claims.
Two variants of the finalize exist in the source:

* routers/ai.py lines 131-165 (also main.py lines 632-671): a fresh
  session re-fetches the user row with a plain primary-key get, checks the
  read balance, and commits the decrement computed from that read value.
  The read and the commit are two separate atomic database actions with
  no lock held in between.

* routers/conversations.py lines 258-296: the re-fetch uses
  `with_for_update()`, so the read, the check, the decrement and the
  commit form one exclusive critical section on the user row.

The shared mutable resource is a single user balance row; `saved` counts
assistant messages persisted by finalize commits.
-/

/-- Progress of one in-flight turn task at its finalize step. -/
inductive TaskState
  | idle
  | readCredits (r : Int)
  | finalizedT
  | discardedT
deriving DecidableEq, Repr

/-- Shared state: the user balance row, the count of persisted assistant
messages, and the per-task progress. -/
structure LState where
  credits : Int
  saved : Nat
  tasks : List TaskState
deriving DecidableEq, Repr

/-- One scheduler action. -/
inductive Act
  | readUser (i : Nat)
  | commitSave (i : Nat)
  | lockedFinalize (i : Nat)
  | webhookIncrement
deriving DecidableEq, Repr

def setTask (ts : List TaskState) (i : Nat) (s : TaskState) : List TaskState :=
  ts.set i s

/-- Small-step semantics.  `readUser` and `commitSave` are the two halves
of the unlocked ai.py finalize: the commit checks and decrements the
value captured by the read.  `lockedFinalize` is the conversations.py
finalize, atomic under the exclusive row lock.  `webhookIncrement` is the
Stripe webhook credit grant (CREDITS_PER_PURCHASE = 100). -/
def step (s : LState) : Act → LState
  | .readUser i =>
    match s.tasks.get? i with
    | some .idle => { s with tasks := setTask s.tasks i (.readCredits s.credits) }
    | _ => s
  | .commitSave i =>
    match s.tasks.get? i with
    | some (.readCredits r) =>
      if r ≤ 0 then { s with tasks := setTask s.tasks i .discardedT }
      else { s with credits := r - 1, saved := s.saved + 1,
                    tasks := setTask s.tasks i .finalizedT }
    | _ => s
  | .lockedFinalize i =>
    match s.tasks.get? i with
    | some .idle =>
      if s.credits ≤ 0 then { s with tasks := setTask s.tasks i .discardedT }
      else { s with credits := s.credits - 1, saved := s.saved + 1,
                    tasks := setTask s.tasks i .finalizedT }
    | _ => s
  | .webhookIncrement => { s with credits := s.credits + 100 }

/-- Run a schedule of interleaved actions. -/
def run (s : LState) : List Act → LState
  | [] => s
  | a :: rest => run (step s a) rest

/-- Initial state for the two-tab scenario: balance exactly 1, no
assistant message saved, two turn tasks about to finalize. -/
def twoTurnsInit : LState := { credits := 1, saved := 0, tasks := [.idle, .idle] }

/-- The states reachable from twoTurnsInit under locked finalizes of the
two tasks. -/
def lockedReach (s : LState) : Prop :=
  s = twoTurnsInit ∨
  s = { credits := 0, saved := 1, tasks := [.finalizedT, .idle] } ∨
  s = { credits := 0, saved := 1, tasks := [.idle, .finalizedT] } ∨
  s = { credits := 0, saved := 1, tasks := [.finalizedT, .discardedT] } ∨
  s = { credits := 0, saved := 1, tasks := [.discardedT, .finalizedT] }

/-- Task i has passed its finalize step (successfully or not). -/
def taskDone (s : LState) (i : Nat) : Prop := s.tasks.get? i ≠ some .idle

end AiRpg.Ledger

namespace AiRpg

/-! Concrete fixtures used by witnesses and counterexamples. -/

/-- A user holding three credits. -/
def demoUser : User :=
  { id := 1, propelauth_user_id := "p1", email := "e1", credits := 3 }

/-- A user holding zero credits. -/
def brokeUser : User :=
  { id := 2, propelauth_user_id := "p2", email := "e2", credits := 0 }

/-- An active conversation of demoUser. -/
def demoConv : Conversation :=
  { id := 1, user_id := 1, title := "t", created_at := 0, updated_at := 10,
    is_active := true }

/-- An older active conversation of demoUser. -/
def olderConv : Conversation :=
  { id := 2, user_id := 1, title := "old", created_at := 0, updated_at := 4,
    is_active := true }

/-- An active user message in demoConv at time 5. -/
def demoUserMsg : ChatMessage :=
  { id := 1, user_id := some 1, conversation_id := 1, role := .user,
    content := "hello", timestamp := 5, is_active := true }

/-- An inactive (soft-deleted) assistant message in demoConv, with a
timestamp equal to that of demoUserMsg. -/
def deletedMsg : ChatMessage :=
  { id := 2, user_id := none, conversation_id := 1, role := .assistant,
    content := "gone", timestamp := 5, is_active := false }

/-- A later active assistant message in demoConv. -/
def demoAsstMsg : ChatMessage :=
  { id := 3, user_id := none, conversation_id := 1, role := .assistant,
    content := "reply", timestamp := 7, is_active := true }

/-- Store with one three-credit user, two active conversations and three
messages, one of them soft-deleted. -/
def demoStore : Store :=
  { users := [demoUser],
    conversations := [demoConv, olderConv],
    messages := [demoUserMsg, deletedMsg, demoAsstMsg] }

/-- Store with one zero-credit user and one active conversation. -/
def brokeStore : Store :=
  { users := [brokeUser],
    conversations := [{ id := 3, user_id := 2, title := "b", created_at := 0,
                        updated_at := 1, is_active := true }],
    messages := [{ id := 9, user_id := some 2, conversation_id := 3,
                   role := .user, content := "hi", timestamp := 1,
                   is_active := true }] }

/-- The empty store, before any authenticated contact. -/
def emptyStore : Store := { users := [], conversations := [], messages := [] }

/-- Fresh ids and timestamps for a demo request. -/
def demoFresh : FreshIds :=
  { newUid := 6, pgCid := 6, pgMid := 6, newConvId := 7, umid := 8, amid := 9,
    pgTs := 20, convTs := 21, umTs := 22, saveTs := 23, aiTs := 24 }

end AiRpg

namespace AiRpg

/-! Shared lemmas. -/

theorem processChunks_of_err (cs : List String) (acc : String) :
    (processChunks cs true acc).1 = true := by
  induction cs generalizing acc with
  | nil => rfl
  | cons c t ih =>
    unfold processChunks
    split
    · exact ih c
    · exact ih (acc ++ c)

theorem processChunks_err_of_mem (cs : List String) (err : Bool) (acc : String)
    (h : ∃ c ∈ cs, startsWithError c = true) :
    (processChunks cs err acc).1 = true := by
  induction cs generalizing err acc with
  | nil => simp at h
  | cons a t ih =>
    unfold processChunks
    rcases h with ⟨c, hc, hs⟩
    rcases List.mem_cons.mp hc with rfl | hmem
    · rw [if_pos hs]
      exact processChunks_of_err t c
    · split
      · exact processChunks_of_err t a
      · exact ih err (acc ++ a) ⟨c, hmem, hs⟩

theorem processChunks_clean (cs : List String) (acc : String)
    (h : ∀ c ∈ cs, startsWithError c = false) :
    (processChunks cs false acc).1 = false := by
  induction cs generalizing acc with
  | nil => rfl
  | cons a t ih =>
    unfold processChunks
    rw [if_neg (by simp [h a (List.mem_cons_self a t)])]
    exact ih (acc ++ a) fun c hc => h c (List.mem_cons_of_mem a hc)

theorem findUserById_update (us : List User) (uid : Nat) (f : Int → Int) :
    (updateUserCredits us uid f).find? (fun u => decide (u.id = uid)) =
      (us.find? (fun u => decide (u.id = uid))).map
        (fun u => { u with credits := f u.credits }) := by
  induction us with
  | nil => rfl
  | cons a t ih =>
    simp only [updateUserCredits, List.map_cons, List.find?_cons] at *
    by_cases h : a.id = uid
    · simp [h]
    · simp [h, ih]

theorem stream_and_save_discard_left (chunks : List String) (st : Store)
    (uid cid amid aiTs : Nat)
    (h1 : (processChunks chunks false "").1 = true ∨
          (processChunks chunks false "").2 = "") :
    stream_and_save chunks st uid cid amid aiTs = (.discarded, st) := by
  simp only [stream_and_save]
  rw [if_pos h1]

theorem stream_and_save_finalize_eq (chunks : List String) (st : Store)
    (uid cid amid aiTs : Nat) (u : User)
    (h1 : ¬((processChunks chunks false "").1 = true ∨
            (processChunks chunks false "").2 = ""))
    (hu : findUserById st uid = some u) (hc : ¬u.credits ≤ 0) :
    stream_and_save chunks st uid cid amid aiTs =
      (.finalized,
        { st with
          messages := st.messages ++
            [{ id := amid, user_id := none, conversation_id := cid,
               role := .assistant, content := (processChunks chunks false "").2,
               timestamp := aiTs, is_active := true }],
          users := updateUserCredits st.users uid (fun c => c - 1),
          conversations := bumpConversation st.conversations cid aiTs }) := by
  simp only [stream_and_save]
  rw [if_neg h1, hu]
  simp only [if_neg hc]

/-- C3: a turn reaches Finalized exactly when the stream produced no
error fragment, the accumulated text is non-empty and the finalize-time
balance check passes; a Finalized turn commits in one unit of work
exactly one new assistant message, the decrement of the balance of the
turn user by exactly 1 (all other users untouched), and the conversation
timestamp bump; a Discarded turn leaves the store completely unchanged,
so no assistant message is created, the balance stays, and the user
message already committed into the store remains. -/
theorem finalize_commits_exactly_once (chunks : List String) (st : Store)
    (uid cid amid aiTs : Nat) :
    ((stream_and_save chunks st uid cid amid aiTs).1 = .finalized ↔
      ((processChunks chunks false "").1 = false ∧
       (processChunks chunks false "").2 ≠ "" ∧
       ∃ u, findUserById st uid = some u ∧ 0 < u.credits)) ∧
    ((stream_and_save chunks st uid cid amid aiTs).1 = .finalized →
      (stream_and_save chunks st uid cid amid aiTs).2.messages =
        st.messages ++
          [{ id := amid, user_id := none, conversation_id := cid,
             role := .assistant, content := (processChunks chunks false "").2,
             timestamp := aiTs, is_active := true }] ∧
      (stream_and_save chunks st uid cid amid aiTs).2.users =
        updateUserCredits st.users uid (fun c => c - 1) ∧
      (stream_and_save chunks st uid cid amid aiTs).2.conversations =
        bumpConversation st.conversations cid aiTs ∧
      ∀ u, findUserById st uid = some u →
        findUserById (stream_and_save chunks st uid cid amid aiTs).2 uid =
          some { u with credits := u.credits - 1 }) ∧
    ((stream_and_save chunks st uid cid amid aiTs).1 = .discarded →
      (stream_and_save chunks st uid cid amid aiTs).2 = st) := by
  by_cases h1 : (processChunks chunks false "").1 = true ∨
      (processChunks chunks false "").2 = ""
  · have he := stream_and_save_discard_left chunks st uid cid amid aiTs h1
    rw [he]
    refine ⟨⟨fun hcontra => by simp at hcontra, ?_⟩,
            fun hcontra => by simp at hcontra, fun _ => rfl⟩
    rintro ⟨hf, hne, -⟩
    rcases h1 with h | h
    · rw [hf] at h; simp at h
    · exact absurd h hne
  · rcases hfind : findUserById st uid with - | u
    · have he : stream_and_save chunks st uid cid amid aiTs = (.discarded, st) := by
        simp only [stream_and_save]
        rw [if_neg h1, hfind]
      rw [he]
      refine ⟨⟨fun hcontra => by simp at hcontra, ?_⟩,
              fun hcontra => by simp at hcontra, fun _ => rfl⟩
      rintro ⟨-, -, u, hu, -⟩
      cases hu
    · by_cases hc : u.credits ≤ 0
      · have he : stream_and_save chunks st uid cid amid aiTs = (.discarded, st) := by
          simp only [stream_and_save]
          rw [if_neg h1, hfind]
          simp only [if_pos hc]
        rw [he]
        refine ⟨⟨fun hcontra => by simp at hcontra, ?_⟩,
                fun hcontra => by simp at hcontra, fun _ => rfl⟩
        rintro ⟨-, -, v, hv, hvpos⟩
        cases hv
        exact absurd hc (not_le.mpr hvpos)
      · have he := stream_and_save_finalize_eq chunks st uid cid amid aiTs u h1 hfind hc
        rw [he]
        refine ⟨⟨fun _ => ⟨?_, fun hb => h1 (Or.inr hb), u, rfl, not_le.mp hc⟩,
                 fun _ => rfl⟩, ?_, ?_⟩
        · rcases hb : (processChunks chunks false "").1 with - | -
          · rfl
          · exact absurd (Or.inl hb) h1
        · intro _
          refine ⟨rfl, rfl, rfl, ?_⟩
          intro v hv
          cases hv
          show (updateUserCredits st.users uid fun c => c - 1).find?
            (fun w => decide (w.id = uid)) = _
          rw [findUserById_update]
          have hfind2 : st.users.find? (fun w => decide (w.id = uid)) = some u := hfind
          rw [hfind2]
          rfl
        · intro hcontra
          simp at hcontra

/-- Witness for C3 at a concrete finalized turn. -/
theorem finalize_commits_exactly_once_witness :
    (stream_and_save ["Hi"] demoStore 1 1 5 9).1 = .finalized ∧
    (stream_and_save ["Hi"] demoStore 1 1 5 9).2.users =
      updateUserCredits demoStore.users 1 (fun c => c - 1) := by
  have h := finalize_commits_exactly_once ["Hi"] demoStore 1 1 5 9
  have hf : (stream_and_save ["Hi"] demoStore 1 1 5 9).1 = .finalized :=
    h.1.mpr ⟨by decide, by decide, demoUser, by decide, by decide⟩
  exact ⟨hf, (h.2.1 hf).2.1⟩

/-- C9: a fragment counts as an error fragment exactly when it begins
with the literal "Error:"; whenever any fragment of the stream begins
with that literal the turn is Discarded with the store unchanged (no
assistant message, no debit), even if the fragment is genuine content;
and when no fragment begins with it, the turn is not classified as an
error. -/
theorem error_fragment_forces_discard (chunks : List String) (st : Store)
    (uid cid amid aiTs : Nat) :
    ((∃ c ∈ chunks, startsWithError c = true) →
      stream_and_save chunks st uid cid amid aiTs = (.discarded, st)) ∧
    ((∀ c ∈ chunks, startsWithError c = false) →
      (processChunks chunks false "").1 = false) ∧
    (∀ c : String, startsWithError c = "Error:".data.isPrefixOf c.data) := by
  refine ⟨?_, ?_, fun _ => rfl⟩
  · intro h
    exact stream_and_save_discard_left chunks st uid cid amid aiTs
      (Or.inl (processChunks_err_of_mem chunks false "" h))
  · exact processChunks_clean chunks ""

/-- Witness for C9: genuine model content that merely begins with the
literal "Error:" still discards the turn. -/
theorem error_fragment_forces_discard_witness :
    stream_and_save ["Error: the dragon has escaped"] demoStore 1 1 5 9 =
      (.discarded, demoStore) :=
  (error_fragment_forces_discard ["Error: the dragon has escaped"]
      demoStore 1 1 5 9).1
    ⟨"Error: the dragon has escaped", List.mem_singleton.mpr rfl, by decide⟩

/-- C10: soft-deleting a conversation sets only its own is_active flag to
false and its updated_at to the deletion time; its other fields, every
message row (in particular every per-message active flag), every user row
(in particular the owner balance) and every other conversation are left
unchanged. -/
theorem delete_conversation_frame (st : Store) (uid cid now : Nat)
    (c : Conversation)
    (h : findOwnedActiveConversation st uid cid = some c) :
    ∃ st', delete_conversation st uid cid now = some st' ∧
      st'.messages = st.messages ∧
      st'.users = st.users ∧
      st'.conversations = st.conversations.map (fun c0 =>
        if c0.id = cid then { c0 with is_active := false, updated_at := now }
        else c0) ∧
      ∀ c0 ∈ st.conversations, c0.id ≠ cid → c0 ∈ st'.conversations := by
  unfold delete_conversation
  rw [h]
  refine ⟨_, rfl, rfl, rfl, rfl, ?_⟩
  intro c0 hc0 hne
  simp only [List.mem_map]
  exact ⟨c0, hc0, by rw [if_neg hne]⟩

/-- Witness for C10 at a concrete store. -/
theorem delete_conversation_frame_witness :
    ∃ st', delete_conversation demoStore 1 1 99 = some st' ∧
      st'.messages = demoStore.messages ∧ st'.users = demoStore.users := by
  obtain ⟨st', h1, h2, h3, -, -⟩ :=
    delete_conversation_frame demoStore 1 1 99 demoConv (by decide)
  exact ⟨st', h1, h2, h3⟩

/-- C7: a turn submitted by a user stored with balance exactly 0 is
rejected with 402 by the advisory pre-check and the returned store is the
input store itself: no conversation or message row is created or
modified, so every history is unchanged. -/
theorem zero_balance_rejected_before_persistence (st : Store)
    (pid email prompt : String) (cidForm : Option Nat) (f : FreshIds)
    (chunks : List String) (u : User)
    (h : findUserByPropelId st pid = some u) (hc : u.credits = 0) :
    chat_message_stream_ai st pid email prompt cidForm f chunks =
      (.errResp .err402, st) := by
  unfold chat_message_stream_ai get_or_create_db_user
  rw [h]
  simp [check_credit_status, hc]

/-- Witness for C7 at a stored zero-balance user. -/
theorem zero_balance_rejected_before_persistence_witness :
    chat_message_stream_ai brokeStore "p2" "e2" "hi" (some 3) demoFresh [] =
      (.errResp .err402, brokeStore) :=
  zero_balance_rejected_before_persistence brokeStore "p2" "e2" "hi" (some 3)
    demoFresh [] brokeUser (by decide) (by decide)

/-- C5 counterexample: the first authenticated contact of a new user
commits a playground conversation whose only message is an ASSISTANT
welcome message; no user message exists at all, so an assistant message
was created without any immediately-preceding committed user message. -/
theorem welcome_message_breaks_invariant :
    ∃ m ∈ (get_or_create_db_user emptyStore "p9" "e9" 1 1 1 0).1.messages,
      m.role = .assistant ∧
      ∀ m2 ∈ (get_or_create_db_user emptyStore "p9" "e9" 1 1 1 0).1.messages,
        m2.role ≠ .user := by
  decide

/-- C5 amended: inside the chat-turn pipeline the invariant does hold:
the user message of the turn is committed first, and the store after the
turn is the prior store extended by that user message, optionally
followed by the single assistant message of the turn, so an assistant
message is appended only after its user message is already durably
committed (and a user message may remain with no paired assistant
message). -/
theorem turn_appends_user_before_assistant (st : Store)
    (uid cid umid umTs saveTs amid aiTs : Nat) (prompt : String)
    (chunks : List String) :
    (chat_turn st uid cid umid umTs saveTs amid aiTs prompt chunks).2.messages =
        st.messages ++
          [{ id := umid, user_id := some uid, conversation_id := cid,
             role := .user, content := prompt, timestamp := umTs,
             is_active := true }] ∨
    (chat_turn st uid cid umid umTs saveTs amid aiTs prompt chunks).2.messages =
        st.messages ++
          [{ id := umid, user_id := some uid, conversation_id := cid,
             role := .user, content := prompt, timestamp := umTs,
             is_active := true },
           { id := amid, user_id := none, conversation_id := cid,
             role := .assistant, content := (processChunks chunks false "").2,
             timestamp := aiTs, is_active := true }] := by
  unfold chat_turn
  by_cases h1 : (processChunks chunks false "").1 = true ∨
      (processChunks chunks false "").2 = ""
  · left
    rw [stream_and_save_discard_left _ _ _ _ _ _ h1]
    rfl
  · rcases hfind : findUserById
        (save_user_message st uid cid umid umTs saveTs prompt) uid with - | u
    · left
      have he : stream_and_save chunks
          (save_user_message st uid cid umid umTs saveTs prompt)
          uid cid amid aiTs =
          (.discarded, save_user_message st uid cid umid umTs saveTs prompt) := by
        simp only [stream_and_save]
        rw [if_neg h1, hfind]
      rw [he]
      rfl
    · by_cases hc : u.credits ≤ 0
      · left
        have he : stream_and_save chunks
            (save_user_message st uid cid umid umTs saveTs prompt)
            uid cid amid aiTs =
            (.discarded, save_user_message st uid cid umid umTs saveTs prompt) := by
          simp only [stream_and_save]
          rw [if_neg h1, hfind]
          simp only [if_pos hc]
        rw [he]
        rfl
      · right
        rw [stream_and_save_finalize_eq _ _ _ _ _ _ u h1 hfind hc]
        show (save_user_message st uid cid umid umTs saveTs prompt).messages ++ _ = _
        simp [save_user_message]

/-- C4 counterexample: the history loaded by routers/ai.py before the
stream contains a soft-deleted message (the query never filters on a
per-message active flag, which the ChatMessage model of models.py does
not even declare) and can contain two equal adjacent timestamps, so it is
neither restricted to active messages nor in strictly increasing
timestamp order. -/
theorem history_contains_inactive_message :
    (∃ m ∈ historyForAI demoStore 1, m.is_active = false) ∧
    ¬(historyForAI demoStore 1).Pairwise
        (fun a b => a.timestamp < b.timestamp) := by
  decide

/-- C4 amended: the history loaded by routers/ai.py contains only
messages of the requested conversation regardless of their active flag,
has at most 20 entries, and is in non-decreasing timestamp order — which
is strictly increasing whenever the timestamps of the messages of the
conversation are pairwise distinct. -/
theorem history_sorted_and_bounded (st : Store) (cid : Nat) :
    (∀ m ∈ historyForAI st cid, m.conversation_id = cid) ∧
    (historyForAI st cid).length ≤ 20 ∧
    (historyForAI st cid).Pairwise histLE ∧
    ((st.messages.filter fun m =>
        decide (m.conversation_id = cid)).Pairwise
          (fun a b => a.timestamp ≠ b.timestamp) →
      (historyForAI st cid).Pairwise (fun a b => a.timestamp < b.timestamp)) := by
  have hsorted : (List.insertionSort histLE (st.messages.filter fun m =>
      decide (m.conversation_id = cid))).Pairwise histLE :=
    List.sorted_insertionSort histLE _
  have hperm := List.perm_insertionSort histLE
    (st.messages.filter fun m => decide (m.conversation_id = cid))
  refine ⟨?_, ?_, ?_, ?_⟩
  · intro m hm
    have hm2 : m ∈ List.insertionSort histLE (st.messages.filter fun m =>
        decide (m.conversation_id = cid)) :=
      List.mem_of_mem_take hm
    have hm3 := hperm.mem_iff.mp hm2
    have := (List.mem_filter.mp hm3).2
    simpa using this
  · exact List.length_take_le 20 _
  · exact hsorted.take
  · intro hd
    have hne : (List.insertionSort histLE (st.messages.filter fun m =>
        decide (m.conversation_id = cid))).Pairwise
          (fun a b => a.timestamp ≠ b.timestamp) :=
      (hperm.pairwise_iff fun hab => Ne.symm hab).mpr hd
    have hlt : (List.insertionSort histLE (st.messages.filter fun m =>
        decide (m.conversation_id = cid))).Pairwise
          (fun a b => a.timestamp < b.timestamp) :=
      (hsorted.and hne).imp fun hab => Nat.lt_of_le_of_ne hab.1 hab.2
    exact hlt.take

/-- Witness for C4 amended: the unconditional conjuncts at the
duplicate-timestamp demo store, and the strictness refinement at a store
whose timestamps are distinct. -/
theorem history_sorted_and_bounded_witness :
    (∀ m ∈ historyForAI demoStore 1, m.conversation_id = 1) ∧
    (historyForAI demoStore 1).length ≤ 20 ∧
    (historyForAI demoStore 1).Pairwise histLE ∧
    (historyForAI brokeStore 3).Pairwise
      (fun a b => a.timestamp < b.timestamp) := by
  obtain ⟨h1, h2, h3, -⟩ := history_sorted_and_bounded demoStore 1
  exact ⟨h1, h2, h3, (history_sorted_and_bounded brokeStore 3).2.2.2 (by decide)⟩

/-- C8 counterexample: routers/ai.py handles an absent conversation id by
creating a brand-new conversation titled from the prompt, instead of
applying the turn to the most recently updated active conversation of the
user: here the most recent active conversation is demoConv (id 1), yet
the user message of the turn lands in a freshly created conversation
(id 7) and the conversation count grows by one. -/
theorem absent_id_creates_new_conversation :
    mostRecentActiveConversation demoStore 1 = some demoConv ∧
    demoConv.id = 1 ∧
    (∃ m ∈ (chat_message_stream_ai demoStore "p1" "e1" "hi" none
        demoFresh []).2.messages,
      m.role = .user ∧ m.conversation_id = 7 ∧ ¬m.conversation_id = 1) ∧
    (chat_message_stream_ai demoStore "p1" "e1" "hi" none
        demoFresh []).2.conversations.length =
      demoStore.conversations.length + 1 := by
  decide

/-- C8 amended: in the chat endpoint of routers/conversations.py an
absent conversation id resolves to an active conversation of the user
with maximal updated_at (the most recently updated one), and is rejected
with 400 exactly when the user has no active conversation at all. -/
theorem absent_id_resolution (st : Store) (uid : Nat) :
    (∀ c, mostRecentActiveConversation st uid = some c →
      resolve_conversation st uid none = .ok c ∧
      c.user_id = uid ∧ c.is_active = true ∧
      ∀ c2 ∈ st.conversations, c2.user_id = uid → c2.is_active = true →
        c2.updated_at ≤ c.updated_at) ∧
    (mostRecentActiveConversation st uid = none →
      resolve_conversation st uid none = .error .err400) ∧
    (mostRecentActiveConversation st uid = none ↔
      ∀ c2 ∈ st.conversations, ¬(c2.user_id = uid ∧ c2.is_active = true)) := by
  have hperm := List.perm_insertionSort convDesc
    (st.conversations.filter fun c => decide (c.user_id = uid) && c.is_active)
  have hsorted := List.sorted_insertionSort convDesc
    (st.conversations.filter fun c => decide (c.user_id = uid) && c.is_active)
  refine ⟨?_, ?_, ?_⟩
  · intro c hc
    unfold mostRecentActiveConversation at hc
    rcases hsl : List.insertionSort convDesc (st.conversations.filter fun c =>
        decide (c.user_id = uid) && c.is_active) with - | ⟨c0, t⟩
    · rw [hsl] at hc; cases hc
    · rw [hsl] at hc
      have hceq : c0 = c := by simpa using hc
      subst hceq
      have hmemfilter : c0 ∈ st.conversations.filter fun c =>
          decide (c.user_id = uid) && c.is_active := by
        have : c0 ∈ List.insertionSort convDesc (st.conversations.filter fun c =>
            decide (c.user_id = uid) && c.is_active) := by
          rw [hsl]; exact List.mem_cons_self c0 t
        exact hperm.mem_iff.mp this
      have hflt := (List.mem_filter.mp hmemfilter).2
      simp only [Bool.and_eq_true, decide_eq_true_eq] at hflt
      refine ⟨?_, hflt.1, hflt.2, ?_⟩
      · unfold resolve_conversation mostRecentActiveConversation
        rw [hsl]
        rfl
      · intro c2 hc2 hcu hca
        have hmem2 : c2 ∈ List.insertionSort convDesc
            (st.conversations.filter fun c =>
              decide (c.user_id = uid) && c.is_active) :=
          hperm.mem_iff.mpr (List.mem_filter.mpr ⟨hc2, by simp [hcu, hca]⟩)
        rw [hsl] at hmem2
        rcases List.mem_cons.mp hmem2 with rfl | hmem3
        · exact Nat.le_refl _
        · rw [hsl] at hsorted
          exact List.rel_of_sorted_cons hsorted c2 hmem3
  · intro hnone
    unfold resolve_conversation
    rw [hnone]
  · constructor
    · intro hnone c2 hc2 hpred
      unfold mostRecentActiveConversation at hnone
      have hnil := List.head?_eq_none_iff.mp hnone
      have hfnil : (st.conversations.filter fun c =>
          decide (c.user_id = uid) && c.is_active) = [] := by
        have := hperm
        rw [hnil] at this
        exact (List.Perm.eq_nil this.symm)
      have hmem : c2 ∈ st.conversations.filter fun c =>
          decide (c.user_id = uid) && c.is_active :=
        List.mem_filter.mpr ⟨hc2, by simp [hpred.1, hpred.2]⟩
      rw [hfnil] at hmem
      cases hmem
    · intro hall
      unfold mostRecentActiveConversation
      rw [List.head?_eq_none_iff]
      have hfnil : (st.conversations.filter fun c =>
          decide (c.user_id = uid) && c.is_active) = [] := by
        rw [List.filter_eq_nil_iff]
        intro c2 hc2
        have := hall c2 hc2
        simp only [Bool.and_eq_true, decide_eq_true_eq]
        intro hcontra
        exact this hcontra
      rw [hfnil]
      rfl

/-- Witness for C8 amended: the most recent of the two active
conversations of the demo user is picked. -/
theorem absent_id_resolution_witness :
    resolve_conversation demoStore 1 none = .ok demoConv ∧
    ∀ c2 ∈ demoStore.conversations, c2.user_id = 1 → c2.is_active = true →
      c2.updated_at ≤ demoConv.updated_at := by
  obtain ⟨h1, -, -, h4⟩ :=
    (absent_id_resolution demoStore 1).1 demoConv (by decide)
  exact ⟨h1, h4⟩

end AiRpg

namespace AiRpg.Ledger

/-- C1 counterexample: in the unlocked finalize of routers/ai.py (the
variant also mounted by main.py) both concurrent turns can read the
balance 1 before either commits; both then pass the post-stream balance
check and both finalize, each committing an assistant message, so it is
false that at most one of them succeeds in decrementing the credit when
only one credit remains. -/
theorem unlocked_double_finalize :
    run twoTurnsInit [.readUser 0, .readUser 1, .commitSave 0, .commitSave 1] =
      { credits := 0, saved := 2, tasks := [.finalizedT, .finalizedT] } ∧
    ¬((run twoTurnsInit
        [.readUser 0, .readUser 1, .commitSave 0, .commitSave 1]).tasks.count
          .finalizedT = 1) := by
  decide

theorem locked_step_reach (s : LState) (a : Act) (hs : lockedReach s)
    (ha : a = Act.lockedFinalize 0 ∨ a = Act.lockedFinalize 1) :
    lockedReach (step s a) := by
  rcases hs with rfl | rfl | rfl | rfl | rfl <;>
    rcases ha with rfl | rfl <;>
      (unfold lockedReach; decide)

theorem locked_step_done (s : LState) (a : Act) (i : Nat) (hs : lockedReach s)
    (ha : a = Act.lockedFinalize 0 ∨ a = Act.lockedFinalize 1)
    (hi : i = 0 ∨ i = 1) (hd : taskDone s i) : taskDone (step s a) i := by
  rcases hs with rfl | rfl | rfl | rfl | rfl <;>
    rcases ha with rfl | rfl <;>
      rcases hi with rfl | rfl <;>
        first
          | (unfold taskDone; decide)
          | exact absurd rfl hd

theorem locked_step_est (s : LState) (i : Nat) (hs : lockedReach s)
    (hi : i = 0 ∨ i = 1) : taskDone (step s (Act.lockedFinalize i)) i := by
  rcases hs with rfl | rfl | rfl | rfl | rfl <;>
    rcases hi with rfl | rfl <;>
      (unfold taskDone; decide)

theorem locked_run_reach : ∀ (acts : List Act),
    (∀ a ∈ acts, a = Act.lockedFinalize 0 ∨ a = Act.lockedFinalize 1) →
    ∀ s, lockedReach s → lockedReach (run s acts)
  | [], _, _, hs => hs
  | a :: t, hl, s, hs =>
    locked_run_reach t (fun b hb => hl b (List.mem_cons_of_mem a hb)) (step s a)
      (locked_step_reach s a hs (hl a (List.mem_cons_self a t)))

theorem locked_run_done : ∀ (acts : List Act) (i : Nat),
    (∀ a ∈ acts, a = Act.lockedFinalize 0 ∨ a = Act.lockedFinalize 1) →
    (i = 0 ∨ i = 1) →
    ∀ s, lockedReach s → taskDone s i → taskDone (run s acts) i
  | [], _, _, _, _, _, hd => hd
  | a :: t, i, hl, hi, s, hs, hd =>
    locked_run_done t i (fun b hb => hl b (List.mem_cons_of_mem a hb)) hi
      (step s a) (locked_step_reach s a hs (hl a (List.mem_cons_self a t)))
      (locked_step_done s a i hs (hl a (List.mem_cons_self a t)) hi hd)

theorem locked_run_est : ∀ (acts : List Act) (i : Nat),
    (∀ a ∈ acts, a = Act.lockedFinalize 0 ∨ a = Act.lockedFinalize 1) →
    (i = 0 ∨ i = 1) → Act.lockedFinalize i ∈ acts →
    ∀ s, lockedReach s → taskDone (run s acts) i
  | [], _, _, _, hmem, _, _ => absurd hmem (List.not_mem_nil _)
  | a :: t, i, hl, hi, hmem, s, hs => by
    rcases List.mem_cons.mp hmem with heq | hmem2
    · subst heq
      show taskDone (run (step s (Act.lockedFinalize i)) t) i
      exact locked_run_done t i
        (fun b hb => hl b (List.mem_cons_of_mem _ hb)) hi
        (step s (Act.lockedFinalize i))
        (locked_step_reach s _ hs
          (by rcases hi with rfl | rfl
              · exact Or.inl rfl
              · exact Or.inr rfl))
        (locked_step_est s i hs hi)
    · exact locked_run_est t i (fun b hb => hl b (List.mem_cons_of_mem a hb))
        hi hmem2 (step s a)
        (locked_step_reach s a hs (hl a (List.mem_cons_self a t)))

/-- C1 amended: under the exclusive-row-lock finalize of
routers/conversations.py (with_for_update), every interleaving of two
locked finalizes from a balance of exactly 1 in which both turns complete
ends with exactly one turn Finalized and the other Discarded for
insufficient credit, with the balance at 0 and exactly one assistant
message saved — independently of any upstream pre-check, which this model
does not even include.  The unlocked finalize of routers/ai.py does not
provide this guarantee (see the counterexample). -/
theorem locked_finalize_exactly_one (acts : List Act)
    (hl : ∀ a ∈ acts, a = Act.lockedFinalize 0 ∨ a = Act.lockedFinalize 1)
    (h0 : Act.lockedFinalize 0 ∈ acts) (h1 : Act.lockedFinalize 1 ∈ acts) :
    (run twoTurnsInit acts).credits = 0 ∧
    (run twoTurnsInit acts).saved = 1 ∧
    ((run twoTurnsInit acts).tasks = [.finalizedT, .discardedT] ∨
     (run twoTurnsInit acts).tasks = [.discardedT, .finalizedT]) := by
  have hre := locked_run_reach acts hl twoTurnsInit (Or.inl rfl)
  have hd0 := locked_run_est acts 0 hl (Or.inl rfl) h0 twoTurnsInit (Or.inl rfl)
  have hd1 := locked_run_est acts 1 hl (Or.inr rfl) h1 twoTurnsInit (Or.inl rfl)
  unfold lockedReach at hre
  rcases hre with he | he | he | he | he <;> rw [he] at hd0 hd1 ⊢
  · exact absurd rfl hd0
  · exact absurd rfl hd1
  · exact absurd rfl hd0
  · exact ⟨rfl, rfl, Or.inl rfl⟩
  · exact ⟨rfl, rfl, Or.inr rfl⟩

/-- Witness for C1 amended at a concrete schedule. -/
theorem locked_finalize_exactly_one_witness :
    (run twoTurnsInit [.lockedFinalize 1, .lockedFinalize 0]).credits = 0 ∧
    (run twoTurnsInit [.lockedFinalize 1, .lockedFinalize 0]).saved = 1 := by
  obtain ⟨h1, h2, -⟩ :=
    locked_finalize_exactly_one [.lockedFinalize 1, .lockedFinalize 0]
      (by decide) (by decide) (by decide)
  exact ⟨h1, h2⟩

end AiRpg.Ledger

namespace AiRpg

/-- C2: the stored balance is never negative at any observable point: a
freshly created user starts at 0, and from any state with non-negative
balance every interleaving of row reads, unlocked finalize commits,
locked finalizes and webhook increments keeps the balance non-negative,
because both finalize variants only ever write a decrement of a value
they checked to be positive and the webhook only adds. -/
theorem balance_never_negative (acts : List Ledger.Act) (s : Ledger.LState)
    (h : 0 ≤ s.credits) :
    0 ≤ (Ledger.run s acts).credits ∧
    ∀ (st : Store) (pid email : String) (a b c d : Nat),
      findUserByPropelId st pid = none →
      ((get_or_create_db_user st pid email a b c d).2).credits = 0 := by
  constructor
  · induction acts generalizing s with
    | nil => exact h
    | cons act t ih =>
      refine ih (Ledger.step s act) ?_
      cases act with
      | readUser i =>
        rcases hg : s.tasks[i]? with - | ts
        · simpa [Ledger.step, hg] using h
        · cases ts <;> simpa [Ledger.step, hg] using h
      | commitSave i =>
        rcases hg : s.tasks[i]? with - | ts
        · simpa [Ledger.step, hg] using h
        · cases ts with
          | readCredits r =>
            by_cases hr : r ≤ 0
            · simpa [Ledger.step, hg, hr] using h
            · simp [Ledger.step, hg, hr]
              omega
          | idle => simpa [Ledger.step, hg] using h
          | finalizedT => simpa [Ledger.step, hg] using h
          | discardedT => simpa [Ledger.step, hg] using h
      | lockedFinalize i =>
        rcases hg : s.tasks[i]? with - | ts
        · simpa [Ledger.step, hg] using h
        · cases ts with
          | idle =>
            by_cases hr : s.credits ≤ 0
            · simpa [Ledger.step, hg, hr] using h
            · simp [Ledger.step, hg, hr]
              omega
          | readCredits r => simpa [Ledger.step, hg] using h
          | finalizedT => simpa [Ledger.step, hg] using h
          | discardedT => simpa [Ledger.step, hg] using h
      | webhookIncrement =>
        simp only [Ledger.step]
        omega
  · intro st pid email a b c d hnone
    unfold get_or_create_db_user
    rw [hnone]

/-- Witness for C2 at a concrete interleaving with a purchase and an
unlocked finalize, and at a concrete new user. -/
theorem balance_never_negative_witness :
    0 ≤ (Ledger.run Ledger.twoTurnsInit
      [.webhookIncrement, .readUser 0, .commitSave 0]).credits ∧
    ((get_or_create_db_user emptyStore "p9" "e9" 1 1 1 0).2).credits = 0 := by
  obtain ⟨h1, h2⟩ := balance_never_negative
    [.webhookIncrement, .readUser 0, .commitSave 0] Ledger.twoTurnsInit
    (by decide)
  exact ⟨h1, h2 emptyStore "p9" "e9" 1 1 1 0 (by decide)⟩

end AiRpg
